import Mathlib

/-!
# Verification of `simple_command` (rukai/simple_command, src/lib.rs)

Shallow embedding of `pub fn simple_command(cmd: &str)`.

The function interacts with the operating system (spawning a child
process, reading its two pipes, waiting for its exit status).  Those
interactions are modelled by explicit environment parameters:

* `spawn : SpawnRequest → Except OsError Unit` — the outcome of
  `command.spawn()` for the request the runner builds;
* `trace : List FillPair` — the successive results of the pair
  `(stdout.fill_buf(), stderr.fill_buf())`, one pair per completed
  iteration of the drain loop (Rust evaluates the tuple left to right,
  so both calls are issued in every iteration that completes);
* `wait : Except OsError ExitStatus` — the outcome of `child.wait()`.

Bytes are `Nat`s (values below 256 in any real execution); the combined
output buffer `Vec<u8>` is a `List Nat`.  `Vec::write_all` is
infallible, so the `expect("Couldn't write")` in the source can never
fire and the writes are modelled as pure list appends.
`child.stdout.as_mut().expect(..)` cannot fail either because both
streams are configured with `Stdio::piped()`.
-/

/-- Bytes of the combined output buffer (`Vec<u8>` in the source). -/
abbrev Bytes := List Nat

/-- Payload of a `std::io::Error` as it matters here: an opaque value
carried into the panic message. -/
structure OsError where
  msg : String
deriving DecidableEq, Repr

/-- Rust `std::process::ExitStatus`, reduced to the two observations the
source makes of it: `status.success()` and `status.code()`. -/
structure ExitStatus where
  isSuccess : Bool
  code : Option Int
deriving DecidableEq, Repr

/-- The result of one completed drain-loop iteration: the pair
`(stdout.fill_buf(), stderr.fill_buf())`, each `Ok` with the freshly
available bytes (empty on end-of-file) or `Err` with an I/O error. -/
abbrev FillPair := Except OsError Bytes × Except OsError Bytes

/-- What the runner passes to the OS when spawning: program name
(`Command::new(words[0])`) and argument vector (`command.arg(word)` for
each remaining token, in order). No shell is involved. -/
structure SpawnRequest where
  program : String
  args : List String
deriving DecidableEq, Repr

/-- Rust `char::is_whitespace`: the Unicode `White_Space` property. -/
def rustIsWhitespace (c : Char) : Bool :=
  let n := c.toNat
  n == 0x20 || (0x9 ≤ n && n ≤ 0xD) || n == 0x85 || n == 0xA0 ||
  n == 0x1680 || (0x2000 ≤ n && n ≤ 0x200A) || n == 0x2028 ||
  n == 0x2029 || n == 0x202F || n == 0x205F || n == 0x3000

/-- Scan for `split_whitespace`: walk the characters keeping the
(reversed) current token; a whitespace character ends the current token,
a trailing token is emitted at the end, empty tokens are dropped. -/
def splitWsAux : List Char → List Char → List String
  | [], acc => if acc.isEmpty then [] else [String.mk acc.reverse]
  | c :: cs, acc =>
    if rustIsWhitespace c then
      if acc.isEmpty then splitWsAux cs []
      else String.mk acc.reverse :: splitWsAux cs []
    else splitWsAux cs (c :: acc)

/-- Rust `str::split_whitespace` (`let words: Vec<_> =
cmd.split_whitespace().collect()`): the maximal runs of
non-whitespace characters of the string, in order — equivalently
`split(char::is_whitespace)` with empty pieces dropped. -/
def rustSplitWhitespace (s : String) : List String := splitWsAux s.data []

/-- `Command::new(words[0])` followed by `for word in &words[1..]
{ command.arg(word); }` — each argument is appended verbatim.  The
`[]` case is unreachable in the source (guarded by the length check). -/
def buildCommand (words : List String) : SpawnRequest :=
  (words.drop 1).foldl (fun c w => { c with args := c.args ++ [w] })
    { program := words.headD "", args := [] }

instance : DecidableEq (Except OsError Bytes) := fun a b =>
  match a, b with
  | .ok x, .ok y => decidable_of_iff (x = y) (by simp)
  | .error x, .error y => decidable_of_iff (x = y) (by simp)
  | .ok _, .error _ => isFalse (by simp)
  | .error _, .ok _ => isFalse (by simp)

/-- Outcome of the drain loop over a finite observed trace. -/
inductive DrainOutcome where
  /-- The loop hit `break`: both reads returned zero bytes in the same
  iteration. Carries the combined buffer. -/
  | finished (buf : Bytes)
  /-- The `other => panic!(..)` arm fired: at least one `fill_buf`
  returned `Err`. Carries the buffer so far and the offending pair,
  whose debug rendering goes into the panic message. -/
  | readPanic (buf : Bytes) (pair : FillPair)
  /-- The observed trace ran out while the loop was still iterating
  (the execution continues beyond the observed prefix). -/
  | outOfTrace (buf : Bytes)
deriving DecidableEq, Repr

/-- Combined buffer carried by any drain outcome. -/
def DrainOutcome.buffer : DrainOutcome → Bytes
  | .finished b => b
  | .readPanic b _ => b
  | .outOfTrace b => b

/-- The drain loop of the source (lines 40–60): in each iteration match
on the pair of `fill_buf` results; on `(Ok, Ok)` append the stdout
chunk then the stderr chunk to the buffer (`output.write_all(stdout);
output.write_all(stderr)`), then `break` if both chunks were empty,
else `consume` both and iterate. Any other pair panics. -/
def drainLoop : List FillPair → Bytes → DrainOutcome
  | [], buf => .outOfTrace buf
  | (so, se) :: rest, buf =>
    match so, se with
    | .ok sob, .ok seb =>
      let buf' := buf ++ sob ++ seb
      if sob.length = 0 ∧ seb.length = 0 then .finished buf'
      else drainLoop rest buf'
    | so, se => .readPanic buf (so, se)

/-- Is `b` a UTF-8 continuation byte (`0x80..=0xBF`)? -/
def isUtf8Cont (b : Nat) : Bool := 0x80 ≤ b && b ≤ 0xBF

/-- The Unicode replacement character U+FFFD. -/
def replacementChar : Char := Char.ofNat 0xFFFD

/-- One step of Rust's UTF-8 validator at a start byte `b` followed by
`rest`: returns the decoded character (or U+FFFD for an invalid or
truncated sequence) and how many bytes of `rest` are consumed in
addition to `b` (the continuation bytes of a valid sequence, or the
valid prefix of an invalid one — Rust's `error_len` rule, so decoding
resumes at the first offending byte).  Second-byte ranges follow the
UTF-8 well-formedness table: `E0` requires `A0..=BF`, `ED` requires
`80..=9F` (no surrogates), `F0` requires `90..=BF`, `F4` requires
`80..=8F` (≤ U+10FFFF). -/
def utf8Step (b : Nat) (rest : List Nat) : Char × Nat :=
  if b < 0x80 then (Char.ofNat b, 0)
  else if b < 0xC2 then (replacementChar, 0)
  else if b ≤ 0xDF then
    match rest with
    | [] => (replacementChar, 0)
    | c :: _ =>
      if isUtf8Cont c then (Char.ofNat ((b - 0xC0) * 0x40 + (c - 0x80)), 1)
      else (replacementChar, 0)
  else if b ≤ 0xEF then
    match rest with
    | [] => (replacementChar, 0)
    | c :: rest2 =>
      if (if b = 0xE0 then 0xA0 ≤ c && c ≤ 0xBF
          else if b = 0xED then 0x80 ≤ c && c ≤ 0x9F
          else isUtf8Cont c) then
        match rest2 with
        | [] => (replacementChar, 1)
        | d :: _ =>
          if isUtf8Cont d then
            (Char.ofNat ((b - 0xE0) * 0x1000 + (c - 0x80) * 0x40 + (d - 0x80)), 2)
          else (replacementChar, 1)
      else (replacementChar, 0)
  else if b ≤ 0xF4 then
    match rest with
    | [] => (replacementChar, 0)
    | c :: rest2 =>
      if (if b = 0xF0 then 0x90 ≤ c && c ≤ 0xBF
          else if b = 0xF4 then 0x80 ≤ c && c ≤ 0x8F
          else isUtf8Cont c) then
        match rest2 with
        | [] => (replacementChar, 1)
        | d :: rest3 =>
          if isUtf8Cont d then
            match rest3 with
            | [] => (replacementChar, 2)
            | e :: _ =>
              if isUtf8Cont e then
                (Char.ofNat ((b - 0xF0) * 0x40000 + (c - 0x80) * 0x1000
                    + (d - 0x80) * 0x40 + (e - 0x80)), 3)
              else (replacementChar, 2)
          else (replacementChar, 1)
      else (replacementChar, 0)
  else (replacementChar, 0)

/-- `String::from_utf8_lossy` on the byte buffer: standard UTF-8
decoding where every maximal invalid subsequence is replaced by one
U+FFFD.  Total: never rejects input. -/
def decodeUtf8LossyAux : Nat → List Nat → List Char
  | _, [] => []
  | 0, _ :: _ => []
  | fuel + 1, b :: rest =>
    let s := utf8Step b rest
    s.1 :: decodeUtf8LossyAux fuel (rest.drop s.2)

/-- Decode a whole buffer.  Each step consumes at least one byte, so a
fuel of the buffer's length always suffices and the `fuel = 0` cutoff
of the auxiliary function is never reached. -/
def decodeUtf8Lossy (l : List Nat) : List Char := decodeUtf8LossyAux l.length l

/-- `String::from_utf8_lossy(&output)` as a Lean `String`. -/
def utf8Lossy (bytes : Bytes) : String := ⟨decodeUtf8Lossy bytes⟩

/-- `panic!("\nCommand \"{}\" failed with return value {}\n{}", cmd, status, output)` -/
def failureMessageWithCode (cmd : String) (code : Int) (output : String) : String :=
  "\nCommand \x22" ++ cmd ++ "\x22 failed with return value " ++ toString code
    ++ "\n" ++ output

/-- `panic!("\nCommand \"{}\" failed with no return value\n{}", cmd, output)` -/
def failureMessageNoCode (cmd : String) (output : String) : String :=
  "\nCommand \x22" ++ cmd ++ "\x22 failed with no return value\n" ++ output

/-- Observable result of one invocation of `simple_command`. -/
inductive RunResult where
  /-- Normal return: the function falls off the end, producing no
  output; the combined buffer is discarded. -/
  | ok
  /-- `panic!("No command specified")` -/
  | panicEmptyCommand
  /-- `.unwrap()` on the `Err` of `command.spawn()`. -/
  | panicSpawn (e : OsError)
  /-- `panic!("Failed to read stdout or stderr... {:?}", other)`: the
  pair identifies positionally which stream(s) failed and carries the
  underlying error(s). -/
  | panicRead (buf : Bytes) (pair : FillPair)
  /-- `panic!("{:?}", err)` on `child.wait()` returning `Err`. -/
  | panicWait (e : OsError)
  /-- One of the two final `panic!`s, carrying the formatted message. -/
  | panicCmdFailed (msg : String)
  /-- The drain loop was still running when the observed trace ended. -/
  | drainUnfinished (buf : Bytes)
deriving DecidableEq, Repr

/-- `pub fn simple_command(cmd: &str)` (src/lib.rs lines 18–75), with
the OS interactions supplied as explicit parameters. -/
def simple_command (cmd : String) (spawn : SpawnRequest → Except OsError Unit)
    (trace : List FillPair) (wait : Except OsError ExitStatus) : RunResult :=
  let words := rustSplitWhitespace cmd
  if words.length = 0 then .panicEmptyCommand
  else
    match spawn (buildCommand words) with
    | .error e => .panicSpawn e
    | .ok _ =>
      match drainLoop trace [] with
      | .readPanic buf pair => .panicRead buf pair
      | .outOfTrace buf => .drainUnfinished buf
      | .finished buf =>
        let output := utf8Lossy buf
        match wait with
        | .error err => .panicWait err
        | .ok status =>
          if status.isSuccess then .ok
          else
            match status.code with
            | some c => .panicCmdFailed (failureMessageWithCode cmd c output)
            | none => .panicCmdFailed (failureMessageNoCode cmd output)

/-! ## Auxiliary observations on drain traces

Spec-side characterisations used to state properties of `drainLoop`. -/

/-- The bytes an `(Ok, Ok)` iteration appends to the combined buffer:
the stdout chunk followed by the stderr chunk. An erroring pair
appends nothing (the loop panics before writing). -/
def pairBytes : FillPair → Bytes
  | (.ok a, .ok b) => a ++ b
  | _ => []

/-- The prefix of the trace the drain loop actually processes: every
`(Ok, Ok)` pair up to and including the first pair whose two chunks are
both empty (the `break`), stopping (exclusively) at an erroring pair. -/
def processedPrefix : List FillPair → List FillPair
  | [] => []
  | p :: rest =>
    match p with
    | (.ok a, .ok b) =>
      if a = [] ∧ b = [] then [p] else p :: processedPrefix rest
    | _ => []

/-! ## Blocking model of one drain-loop iteration

`trace`/`drainLoop` above model the iterations whose two `fill_buf`
calls both returned.  Whether a `fill_buf` call returns at all is
governed by the pipe semantics of `BufReader`: `fill_buf` with an empty
internal buffer calls `Read::read` on the pipe, which returns
immediately when bytes are available, returns 0 (end-of-file) when the
write end is closed, and otherwise blocks until the child writes or
closes the pipe.  The definitions below embed one evaluation of the
source's `(stdout.fill_buf(), stderr.fill_buf())` (line 41) under these
semantics; Rust evaluates the tuple left to right, so the stdout fill
is issued first and, while it blocks, the stderr pipe is not read. -/

/-- A pipe as the reader sees it: the bytes currently available, and
whether the write end has been closed (end-of-file once drained). -/
structure StreamState where
  pending : Bytes
  closed : Bool
deriving DecidableEq, Repr

/-- Result of evaluating `(stdout.fill_buf(), stderr.fill_buf())` once
against the two pipe states. -/
inductive IterAttempt where
  /-- The stdout fill blocked (no data, pipe open): the runner is stuck
  waiting for stdout; `stderrPending` records what stderr held. -/
  | blockedOnStdout (stderrPending : Bytes)
  /-- The stdout fill returned but the stderr fill blocked. -/
  | blockedOnStderr (stdoutChunk : Bytes)
  /-- Both fills returned: the iteration completes with both chunks
  (a chunk is empty exactly on end-of-file). -/
  | completes (stdoutChunk stderrChunk : Bytes)
deriving DecidableEq, Repr

/-- `BufReader::fill_buf` on one pipe blocks iff the pipe has no
pending data and its write end is still open. -/
def fillBufBlocks (s : StreamState) : Bool := s.pending.isEmpty && !s.closed

/-- One evaluation of the pair of fills at line 41 of the source. -/
def drainIterAttempt (so se : StreamState) : IterAttempt :=
  if fillBufBlocks so then .blockedOnStdout se.pending
  else if fillBufBlocks se then .blockedOnStderr so.pending
  else .completes so.pending se.pending

/-! ## Helper lemmas -/

theorem drainLoop_cons_okok (a b : Bytes) (rest : List FillPair) (buf : Bytes) :
    drainLoop ((Except.ok a, Except.ok b) :: rest) buf =
      if a = [] ∧ b = [] then DrainOutcome.finished (buf ++ a ++ b)
      else drainLoop rest (buf ++ a ++ b) := by
  simp [drainLoop, List.length_eq_zero]

theorem drainLoop_readPanic_has_error (t : List FillPair) (buf b : Bytes) (p : FillPair)
    (h : drainLoop t buf = DrainOutcome.readPanic b p) :
    (∃ e, p.1 = Except.error e) ∨ (∃ e, p.2 = Except.error e) := by
  induction t generalizing buf with
  | nil => simp [drainLoop] at h
  | cons q rest ih =>
    obtain ⟨so, se⟩ := q
    cases so with
    | error e =>
      simp [drainLoop] at h
      exact Or.inl ⟨e, by rw [← h.2]⟩
    | ok a =>
      cases se with
      | error e =>
        simp [drainLoop] at h
        exact Or.inr ⟨e, by rw [← h.2]⟩
      | ok c =>
        rw [drainLoop_cons_okok] at h
        split at h
        · exact absurd h (by simp)
        · exact ih _ h

theorem buildCommand_foldl (ws : List String) (p : String) (acc : List String) :
    ws.foldl (fun c w => { c with args := c.args ++ [w] })
      ({ program := p, args := acc } : SpawnRequest) = { program := p, args := acc ++ ws } := by
  induction ws generalizing acc with
  | nil => simp
  | cons w ws ih => simp [List.foldl, ih (acc ++ [w])]

theorem buildCommand_cons (w : String) (ws : List String) :
    buildCommand (w :: ws) = { program := w, args := ws } := by
  simp [buildCommand, buildCommand_foldl]

theorem simple_command_words_length (cmd : String)
    (h : rustSplitWhitespace cmd ≠ []) : (rustSplitWhitespace cmd).length ≠ 0 :=
  fun hl => h (List.length_eq_zero.mp hl)

/-! ## The claims -/

/-- C4: for every command line that tokenizes by whitespace to zero
tokens (the empty string and every all-whitespace string are such
lines), `simple_command` aborts with the `"No command specified"` panic
before anything else: the result is `panicEmptyCommand` for every
environment, so no spawn is attempted and no output is captured. -/
theorem empty_command_aborts (cmd : String) (spawn : SpawnRequest → Except OsError Unit)
    (trace : List FillPair) (wait : Except OsError ExitStatus)
    (h : rustSplitWhitespace cmd = []) :
    simple_command cmd spawn trace wait = RunResult.panicEmptyCommand := by
  simp [simple_command, h]

/-- Witness for C4 at the empty string and an all-whitespace string. -/
theorem empty_command_aborts_witness :
    rustSplitWhitespace "" = [] ∧ rustSplitWhitespace "  \t\n " = [] ∧
    simple_command "  \t\n " (fun _ => Except.ok ()) [(Except.ok [1], Except.ok [])]
      (Except.ok ⟨true, some 0⟩) = RunResult.panicEmptyCommand :=
  ⟨by decide, by decide, empty_command_aborts _ _ _ _ (by decide)⟩

/-- C5: for every command line with at least one token whose spawn
fails, `simple_command` aborts with the spawn panic carrying the
underlying OS error; the conclusion holds for every drain trace and
every wait result, so the draining and waiting stages are never
reached (no bytes are read, no exit status is retrieved). -/
theorem spawn_failure_aborts (cmd : String) (spawn : SpawnRequest → Except OsError Unit)
    (trace : List FillPair) (wait : Except OsError ExitStatus) (e : OsError)
    (h0 : rustSplitWhitespace cmd ≠ [])
    (h1 : spawn (buildCommand (rustSplitWhitespace cmd)) = Except.error e) :
    simple_command cmd spawn trace wait = RunResult.panicSpawn e := by
  simp [simple_command, simple_command_words_length cmd h0, h1]

/-- Witness for C5: a missing executable, with a nonempty trace and a
successful wait available that are never consulted. -/
theorem spawn_failure_aborts_witness :
    simple_command "missing-program --flag" (fun _ => Except.error ⟨"ENOENT"⟩)
      [(Except.ok [1], Except.ok [2])] (Except.ok ⟨true, some 0⟩)
      = RunResult.panicSpawn ⟨"ENOENT"⟩ :=
  spawn_failure_aborts _ _ _ _ _ (by decide) rfl

/-- C9: for every command line with at least one whitespace-separated
token, the spawn request is built from the first token as the program
name and the remaining tokens, verbatim and in their original order, as
the argument vector; moreover the run consults the spawn environment
only at that request (two environments agreeing there are
indistinguishable), and no shell is interposed — the request is passed
to the OS as program plus argument list. -/
theorem spawn_request_tokens (cmd : String) (w : String) (ws : List String)
    (h : rustSplitWhitespace cmd = w :: ws) :
    buildCommand (rustSplitWhitespace cmd) = { program := w, args := ws }
    ∧ ∀ (spawn₁ spawn₂ : SpawnRequest → Except OsError Unit)
        (trace : List FillPair) (wait : Except OsError ExitStatus),
        spawn₁ { program := w, args := ws } = spawn₂ { program := w, args := ws } →
        simple_command cmd spawn₁ trace wait = simple_command cmd spawn₂ trace wait := by
  refine ⟨by rw [h, buildCommand_cons], ?_⟩
  intro s₁ s₂ trace wait hag
  simp [simple_command, h, buildCommand_cons, hag]

/-- Witness for C9 on a three-token command line. -/
theorem spawn_request_tokens_witness :
    buildCommand (rustSplitWhitespace "gcc -c main.c")
      = { program := "gcc", args := ["-c", "main.c"] } :=
  (spawn_request_tokens "gcc -c main.c" "gcc" ["-c", "main.c"] (by decide)).1

/-- C10: within a single iteration of the drain loop, the stdout chunk
is appended to the combined buffer before the stderr chunk of the same
iteration (`buf ++ a ++ b`), both when the iteration is the final one
(both chunks empty, `break`) and when the loop continues — so the
buffer grows, iteration by iteration, by stdout chunk then stderr
chunk. -/
theorem iteration_appends_stdout_then_stderr (a b : Bytes) (rest : List FillPair) (buf : Bytes) :
    drainLoop ((Except.ok a, Except.ok b) :: rest) buf =
      if a = [] ∧ b = [] then DrainOutcome.finished (buf ++ a ++ b)
      else drainLoop rest (buf ++ a ++ b) :=
  drainLoop_cons_okok a b rest buf

/-- C8: for every observed trace and every starting buffer, the drain
loop's final buffer — whether it finished, panicked on a read error, or
was still running when the trace ended — is exactly the starting buffer
followed by the bytes of the processed `(Ok, Ok)` iterations, each
iteration contributing its stdout chunk then its stderr chunk, in
iteration order (`processedPrefix` is a prefix of the trace): the
buffer is append-only and no observed byte is dropped, duplicated or
reordered. -/
theorem drain_buffer_exact (t : List FillPair) (buf : Bytes) :
    (drainLoop t buf).buffer = buf ++ ((processedPrefix t).map pairBytes).flatten
    ∧ ∃ post, t = processedPrefix t ++ post := by
  induction t generalizing buf with
  | nil =>
    exact ⟨by simp [drainLoop, processedPrefix, DrainOutcome.buffer], ⟨[], by simp [processedPrefix]⟩⟩
  | cons q rest ih =>
    obtain ⟨so, se⟩ := q
    cases so with
    | error e =>
      refine ⟨by simp [drainLoop, processedPrefix, DrainOutcome.buffer], ?_⟩
      exact ⟨(Except.error e, se) :: rest, by simp [processedPrefix]⟩
    | ok a =>
      cases se with
      | error e =>
        refine ⟨by simp [drainLoop, processedPrefix, DrainOutcome.buffer], ?_⟩
        exact ⟨(Except.ok a, Except.error e) :: rest, by simp [processedPrefix]⟩
      | ok c =>
        by_cases hab : a = [] ∧ c = []
        · obtain ⟨ha, hc⟩ := hab
          subst ha; subst hc
          refine ⟨?_, ⟨rest, by simp [processedPrefix]⟩⟩
          rw [drainLoop_cons_okok]
          simp [processedPrefix, pairBytes, DrainOutcome.buffer]
        · obtain ⟨ihb, post, ihp⟩ := ih (buf ++ a ++ c)
          constructor
          · rw [drainLoop_cons_okok, if_neg hab, ihb]
            simp [processedPrefix, hab, pairBytes, List.append_assoc]
          · refine ⟨post, ?_⟩
            simp only [processedPrefix, if_neg hab, List.cons_append]
            exact congrArg _ ihp

/-- C3: the drain loop exits normally (reaching the `break`) exactly
when an iteration's two reads both return zero bytes: `drainLoop`
yields `finished out` iff the trace is a run of `(Ok, Ok)` iterations,
none with both chunks empty — each appending its bytes to the buffer —
followed by an iteration in which both reads return zero bytes, and
`out` is the buffer accumulated over the preceding iterations. -/
theorem drain_finished_iff (t : List FillPair) (buf out : Bytes) :
    drainLoop t buf = DrainOutcome.finished out ↔
      ∃ pre rest, t = pre ++ ((Except.ok [], Except.ok []) : FillPair) :: rest
        ∧ (∀ p ∈ pre, ∃ a b, p = ((Except.ok a, Except.ok b) : FillPair) ∧ ¬(a = [] ∧ b = []))
        ∧ out = buf ++ (pre.map pairBytes).flatten := by
  induction t generalizing buf with
  | nil =>
    constructor
    · intro h; simp [drainLoop] at h
    · rintro ⟨pre, rest, heq, -, -⟩
      exact absurd heq (by simp)
  | cons q rest ih =>
    obtain ⟨so, se⟩ := q
    cases so with
    | error e =>
      constructor
      · intro h; simp [drainLoop] at h
      · rintro ⟨pre, rest', heq, hall, -⟩
        cases pre with
        | nil => simp at heq
        | cons p pre' =>
          rw [List.cons_append] at heq
          injection heq with hpair htail
          obtain ⟨a, b, hp, -⟩ := hall p (List.mem_cons_self p pre')
          rw [hp] at hpair
          simp at hpair
    | ok a =>
      cases se with
      | error e =>
        constructor
        · intro h; simp [drainLoop] at h
        · rintro ⟨pre, rest', heq, hall, -⟩
          cases pre with
          | nil => simp at heq
          | cons p pre' =>
            rw [List.cons_append] at heq
            injection heq with hpair htail
            obtain ⟨a', b', hp, -⟩ := hall p (List.mem_cons_self p pre')
            rw [hp] at hpair
            simp at hpair
      | ok c =>
        rw [drainLoop_cons_okok]
        by_cases hab : a = [] ∧ c = []
        · obtain ⟨ha, hc⟩ := hab
          subst ha; subst hc
          rw [if_pos ⟨rfl, rfl⟩]
          constructor
          · intro h
            injection h with hbuf
            refine ⟨[], rest, by simp, by simp, ?_⟩
            simp [← hbuf]
          · rintro ⟨pre, rest', heq, hall, hout⟩
            cases pre with
            | nil =>
              simp at hout
              simp [hout]
            | cons p pre' =>
              rw [List.cons_append] at heq
              injection heq with hpair htail
              obtain ⟨a', b', hp, hne⟩ := hall p (List.mem_cons_self p pre')
              rw [hp] at hpair
              injection hpair with hx hy
              injection hx with hx'
              injection hy with hy'
              exact absurd ⟨hx'.symm, hy'.symm⟩ hne
        · rw [if_neg hab]
          constructor
          · intro h
            obtain ⟨pre', rest', heq, hall, hout⟩ := (ih _).mp h
            refine ⟨(Except.ok a, Except.ok c) :: pre', rest', by rw [heq, List.cons_append], ?_, ?_⟩
            · intro p hp
              rcases List.mem_cons.mp hp with hH | hT
              · exact ⟨a, c, hH, hab⟩
              · exact hall p hT
            · simp [hout, pairBytes, List.append_assoc]
          · rintro ⟨pre, rest', heq, hall, hout⟩
            cases pre with
            | nil =>
              exfalso
              rw [List.nil_append] at heq
              injection heq with hpair htail
              injection hpair with hx hy
              injection hx with hx'
              injection hy with hy'
              exact hab ⟨hx', hy'⟩
            | cons p pre' =>
              rw [List.cons_append] at heq
              injection heq with hpair htail
              refine (ih _).mpr ⟨pre', rest', htail, fun q hq => hall q (List.mem_cons_of_mem p hq), ?_⟩
              rw [hout, ← hpair]
              simp [pairBytes, List.append_assoc]

/-- C6: if an I/O error occurs on either stream during draining — the
drain loop hits its panicking arm — the whole run aborts with the read
panic, carrying the pair that identifies positionally which stream(s)
failed together with the underlying error value(s); at least one
component of that pair is an error, and the conclusion holds for every
wait result, so nothing is retried and the wait stage is never
consulted. -/
theorem stream_read_failure_aborts (cmd : String) (spawn : SpawnRequest → Except OsError Unit)
    (trace : List FillPair) (wait : Except OsError ExitStatus) (buf : Bytes) (pair : FillPair)
    (h0 : rustSplitWhitespace cmd ≠ [])
    (h1 : spawn (buildCommand (rustSplitWhitespace cmd)) = Except.ok ())
    (h2 : drainLoop trace [] = DrainOutcome.readPanic buf pair) :
    simple_command cmd spawn trace wait = RunResult.panicRead buf pair
    ∧ ((∃ e, pair.1 = Except.error e) ∨ (∃ e, pair.2 = Except.error e)) :=
  ⟨by simp [simple_command, simple_command_words_length cmd h0, h1, h2],
   drainLoop_readPanic_has_error trace [] buf pair h2⟩

/-- Witness for C6: the stderr read fails in the second iteration; the
bytes already collected are kept in the report and the available
successful wait is never used. -/
theorem stream_read_failure_aborts_witness :
    simple_command "cat f" (fun _ => Except.ok ())
      [(Except.ok [104], Except.ok []), (Except.ok [], Except.error ⟨"EIO"⟩)]
      (Except.ok ⟨true, some 0⟩)
      = RunResult.panicRead [104] (Except.ok [], Except.error ⟨"EIO"⟩) :=
  (stream_read_failure_aborts _ _ _ _ _ _ (by decide) rfl (by decide)).1

/-- C7: once the drain loop has exited normally, the run's outcome is
decided entirely by the result of the blocking wait for the child's
true exit status: an OS error while retrieving the status aborts with
the wait panic carrying that error, and otherwise the pass/fail
decision is a function of the status obtained — for every command,
spawn environment and finished trace. -/
theorem wait_decides_outcome (cmd : String) (spawn : SpawnRequest → Except OsError Unit)
    (trace : List FillPair) (wait : Except OsError ExitStatus) (buf : Bytes)
    (h0 : rustSplitWhitespace cmd ≠ [])
    (h1 : spawn (buildCommand (rustSplitWhitespace cmd)) = Except.ok ())
    (h2 : drainLoop trace [] = DrainOutcome.finished buf) :
    simple_command cmd spawn trace wait =
      match wait with
      | Except.error e => RunResult.panicWait e
      | Except.ok status =>
        if status.isSuccess then RunResult.ok
        else
          match status.code with
          | some c => RunResult.panicCmdFailed (failureMessageWithCode cmd c (utf8Lossy buf))
          | none => RunResult.panicCmdFailed (failureMessageNoCode cmd (utf8Lossy buf)) := by
  simp only [simple_command, h1, h2]
  rw [if_neg (by simpa [List.length_eq_zero] using h0)]

/-- Witness for C7: the OS reports an error retrieving the status (the
drain loop had already exited after a silent trace). -/
theorem wait_decides_outcome_witness :
    simple_command "true" (fun _ => Except.ok ())
      [(Except.ok [], Except.ok [])] (Except.error ⟨"ECHILD"⟩)
      = RunResult.panicWait ⟨"ECHILD"⟩ :=
  wait_decides_outcome "true" (fun _ => Except.ok ())
    [(Except.ok [], Except.ok [])] (Except.error ⟨"ECHILD"⟩) [] (by decide) rfl (by decide)

theorem noReturnValue_data_split :
    ("\x22 failed with no return value\n" : String).data
      = ("\x22 failed with " : String).data ++ ("no return value" : String).data
        ++ ("\n" : String).data := by decide

/-- C1: for every invocation whose child is spawned, drained and waited
on successfully, the run returns normally — producing no output, the
buffer being discarded — if and only if the exit status indicates
success; otherwise it aborts with the command-failed panic whose
message contains the original command-line string, the numeric exit
code when one exists (otherwise the note that no return value was
available), and the full combined output decoded by the total lossy
UTF-8 decoding (invalid sequences replaced by U+FFFD, never
rejected). -/
theorem run_reports_failure_with_context (cmd : String)
    (spawn : SpawnRequest → Except OsError Unit) (trace : List FillPair)
    (buf : Bytes) (status : ExitStatus)
    (h0 : rustSplitWhitespace cmd ≠ [])
    (h1 : spawn (buildCommand (rustSplitWhitespace cmd)) = Except.ok ())
    (h2 : drainLoop trace [] = DrainOutcome.finished buf) :
    (simple_command cmd spawn trace (Except.ok status) = RunResult.ok
      ↔ status.isSuccess = true)
    ∧ (status.isSuccess = false →
        ∃ msg : String,
          simple_command cmd spawn trace (Except.ok status) = RunResult.panicCmdFailed msg
          ∧ cmd.data <:+: msg.data
          ∧ (utf8Lossy buf).data <:+: msg.data
          ∧ (∀ c : Int, status.code = some c → (toString c).data <:+: msg.data)
          ∧ (status.code = none → ("no return value" : String).data <:+: msg.data)) := by
  have hrun : simple_command cmd spawn trace (Except.ok status)
      = (if status.isSuccess then RunResult.ok
         else match status.code with
           | some c => RunResult.panicCmdFailed (failureMessageWithCode cmd c (utf8Lossy buf))
           | none => RunResult.panicCmdFailed (failureMessageNoCode cmd (utf8Lossy buf))) := by
    simp only [simple_command, h1, h2]
    rw [if_neg (by simpa [List.length_eq_zero] using h0)]
  cases hs : status.isSuccess with
  | true =>
    constructor
    · simp [hrun, hs]
    · intro hfalse; simp at hfalse
  | false =>
    refine ⟨?_, fun _ => ?_⟩
    · rw [hrun]
      cases hc : status.code <;> simp [hs, hc]
    · cases hc : status.code with
      | some c =>
        refine ⟨failureMessageWithCode cmd c (utf8Lossy buf), ?_, ?_, ?_, ?_, ?_⟩
        · rw [hrun]; simp [hs, hc]
        · exact ⟨("\nCommand \x22" : String).data,
            ("\x22 failed with return value " ++ toString c ++ "\n" ++ utf8Lossy buf : String).data,
            by simp [failureMessageWithCode, String.data_append, List.append_assoc]⟩
        · exact ⟨("\nCommand \x22" ++ cmd ++ "\x22 failed with return value "
              ++ toString c ++ "\n" : String).data, [],
            by simp [failureMessageWithCode, String.data_append, List.append_assoc]⟩
        · intro c' hc'
          injection hc' with hcc
          subst hcc
          exact ⟨("\nCommand \x22" ++ cmd ++ "\x22 failed with return value " : String).data,
            ("\n" ++ utf8Lossy buf : String).data,
            by simp [failureMessageWithCode, String.data_append, List.append_assoc]⟩
        · intro hnone; simp at hnone
      | none =>
        refine ⟨failureMessageNoCode cmd (utf8Lossy buf), ?_, ?_, ?_, ?_, ?_⟩
        · rw [hrun]; simp [hs, hc]
        · exact ⟨("\nCommand \x22" : String).data,
            ("\x22 failed with no return value\n" ++ utf8Lossy buf : String).data,
            by simp [failureMessageNoCode, String.data_append, List.append_assoc]⟩
        · exact ⟨("\nCommand \x22" ++ cmd ++ "\x22 failed with no return value\n" : String).data, [],
            by simp [failureMessageNoCode, String.data_append, List.append_assoc]⟩
        · intro c' hc'; simp at hc'
        · intro _
          exact ⟨("\nCommand \x22" ++ cmd ++ "\x22 failed with " : String).data,
            ("\n" ++ utf8Lossy buf : String).data,
            by simp [failureMessageNoCode, String.data_append, List.append_assoc,
              noReturnValue_data_split]⟩

/-- Witness for C1 at a failing two-token command with exit code 3 and
combined output `"h!"`. -/
theorem run_reports_failure_with_context_witness :
    (simple_command "false x" (fun _ => Except.ok ())
        [(Except.ok [104], Except.ok [33]), (Except.ok [], Except.ok [])]
        (Except.ok ⟨false, some 3⟩) = RunResult.ok
      ↔ (ExitStatus.mk false (some 3)).isSuccess = true)
    ∧ ((ExitStatus.mk false (some 3)).isSuccess = false →
        ∃ msg : String,
          simple_command "false x" (fun _ => Except.ok ())
            [(Except.ok [104], Except.ok [33]), (Except.ok [], Except.ok [])]
            (Except.ok ⟨false, some 3⟩) = RunResult.panicCmdFailed msg
          ∧ ("false x" : String).data <:+: msg.data
          ∧ (utf8Lossy [104, 33]).data <:+: msg.data
          ∧ (∀ c : Int, (ExitStatus.mk false (some 3)).code = some c
              → (toString c).data <:+: msg.data)
          ∧ ((ExitStatus.mk false (some 3)).code = none
              → ("no return value" : String).data <:+: msg.data)) :=
  run_reports_failure_with_context "false x" (fun _ => Except.ok ())
    [(Except.ok [104], Except.ok [33]), (Except.ok [], Except.ok [])]
    [104, 33] ⟨false, some 3⟩ (by decide) rfl (by decide)

/-- Counterexample for C2: at pipe states where the stdout pipe has no
pending data and its write end is still open while the stderr pipe
holds pending bytes, evaluating the source's pair of fills blocks
waiting specifically for stdout — a blocking read that waits for one
stream while the other stream has pending data, which is exactly what
the claim says never happens.  (With the stderr pipe full and the
child blocked writing to it, this state persists and child and runner
deadlock.) -/
theorem drain_blocks_on_stdout_counterexample :
    drainIterAttempt { pending := [], closed := false }
        { pending := [104, 105], closed := false }
      = IterAttempt.blockedOnStdout [104, 105]
    ∧ ([104, 105] : Bytes) ≠ [] :=
  ⟨by decide, by decide⟩

/-- C2 (amended): in each iteration of the drain loop the runner issues
reads on both streams only in sequence, stdout first, with blocking
semantics: when the stdout pipe is empty and still open, the runner
performs a blocking read that waits for stdout regardless of the data
pending on stderr; when stdout yields and the stderr pipe is empty and
still open, it blocks on stderr likewise; only when neither read
blocks does the iteration complete, and then it does check both
streams, reading each stream's available data (empty exactly at
end-of-file). -/
theorem drain_iteration_blocking (so se : StreamState) :
    (so.pending = [] → so.closed = false →
      drainIterAttempt so se = IterAttempt.blockedOnStdout se.pending)
    ∧ ((so.pending ≠ [] ∨ so.closed = true) → se.pending = [] → se.closed = false →
      drainIterAttempt so se = IterAttempt.blockedOnStderr so.pending)
    ∧ ((so.pending ≠ [] ∨ so.closed = true) → (se.pending ≠ [] ∨ se.closed = true) →
      drainIterAttempt so se = IterAttempt.completes so.pending se.pending) := by
  refine ⟨?_, ?_, ?_⟩
  · intro h1 h2
    simp [drainIterAttempt, fillBufBlocks, h1, h2]
  · intro h1 h2 h3
    have hso : fillBufBlocks so = false := by
      rcases h1 with h | h <;> simp [fillBufBlocks, h]
    have hse : fillBufBlocks se = true := by simp [fillBufBlocks, h2, h3]
    simp [drainIterAttempt, hso, hse]
  · intro h1 h2
    have hso : fillBufBlocks so = false := by
      rcases h1 with h | h <;> simp [fillBufBlocks, h]
    have hse : fillBufBlocks se = false := by
      rcases h2 with h | h <;> simp [fillBufBlocks, h]
    simp [drainIterAttempt, hso, hse]

/-- Witness for the amended C2: an iteration at states where both pipes
hold data completes, checking both streams. -/
theorem drain_iteration_blocking_witness :
    drainIterAttempt { pending := [7], closed := false } { pending := [8], closed := false }
      = IterAttempt.completes [7] [8] :=
  (drain_iteration_blocking { pending := [7], closed := false }
    { pending := [8], closed := false }).2.2 (Or.inl (by decide)) (Or.inl (by decide))
